import Mathlib

/-!
Verification development for the membraneless electrolyzer repository.

The electrochemical model (code/simulations/electrolyzer_model.py) and the
experimental analysis component (code/analysis/experimental_analysis.py) are
embedded shallowly: machine floats become real numbers, numpy arrays become
lists of reals, the mutable instance attributes become explicit state records,
and Python exceptions become Except values.  File reading (pandas.read_csv)
and the scipy optimizer are external collaborators; they are modelled as
explicit inputs (a table value standing for the file contents, an abstract
fallible fitting routine).
-/

noncomputable section

namespace Electrolyzer

/-- Faraday constant, from code/utils/constants.py. -/
def FARADAY_CONSTANT : ℝ := 96485.3329

/-- Gas constant, from code/utils/constants.py. -/
def GAS_CONSTANT : ℝ := 8.3144598

/-- Standard hydrogen electrode potential, from code/utils/constants.py. -/
def STANDARD_HYDROGEN_POTENTIAL : ℝ := 0.0

/-- Standard oxygen electrode potential, from code/utils/constants.py. -/
def STANDARD_OXYGEN_POTENTIAL : ℝ := 1.229

/-- Theoretical cell voltage, from code/utils/constants.py. -/
def THEORETICAL_CELL_VOLTAGE : ℝ := 1.229

/-- Parameter set owned by a model instance, mirroring the dictionary built by
MembranelessElectrolyzer._get_default_parameters. -/
structure Params where
  length : ℝ
  width : ℝ
  height : ℝ
  temperature : ℝ
  pressure : ℝ
  inlet_velocity : ℝ
  anode_i0 : ℝ
  cathode_i0 : ℝ
  alpha_a : ℝ
  alpha_c : ℝ
  roughness : ℝ

/-- Default parameters, mirroring _get_default_parameters and the constants
table (ElectrodeParameters and OperatingConditions). -/
def default_parameters : Params where
  length := 0.05
  width := 0.02
  height := 0.005
  temperature := 298.15
  pressure := 101325
  inlet_velocity := 0.01
  anode_i0 := 1e-3
  cathode_i0 := 1e-2
  alpha_a := 0.5
  alpha_c := 0.5
  roughness := 100

/-- Butler-Volmer current density, mirroring
MembranelessElectrolyzer.butler_volmer line for line: F_RT is computed first,
then the anodic and cathodic exponentials, then the product with the exchange
current density and the roughness factor. -/
def butler_volmer (m : Params) (overpotential i0 alpha : ℝ) (n : ℕ) : ℝ :=
  let F_RT := FARADAY_CONSTANT / (GAS_CONSTANT * m.temperature)
  let anodic := Real.exp (alpha * n * F_RT * overpotential)
  let cathodic := Real.exp (-(1 - alpha) * n * F_RT * overpotential)
  i0 * m.roughness * (anodic - cathodic)

/-- Electrode overpotentials, mirroring
MembranelessElectrolyzer.calculate_overpotentials.  The concentration mapping
is reduced to the only key the code reads: the optional hydrogen ion
concentration.  When it is present the cathode Nernst potential is corrected
by the logarithmic term; the anode overpotential is voltage minus the anode
Nernst potential and the cathode overpotential is the cathode Nernst
potential minus zero. -/
def calculate_overpotentials (m : Params) (voltage : ℝ) (cH : Option ℝ) : ℝ × ℝ :=
  let anode_nernst := STANDARD_OXYGEN_POTENTIAL
  let cathode_nernst :=
    match cH with
    | some c =>
        STANDARD_HYDROGEN_POTENTIAL -
          GAS_CONSTANT * m.temperature / FARADAY_CONSTANT * Real.log (c / 1000)
    | none => STANDARD_HYDROGEN_POTENTIAL
  (voltage - anode_nernst, cathode_nernst - 0)

/-- The numpy.linspace sampling used by the voltage sweep: n points from a to
b inclusive, equally spaced. -/
def linspace (a b : ℝ) (n : ℕ) : List ℝ :=
  if n = 0 then []
  else if n = 1 then [a]
  else (List.range n).map (fun (i : ℕ) => a + (b - a) * (i : ℝ) / ((n : ℝ) - 1))

/-- The results dictionary produced by simulate_iv_curve. -/
structure IVResult where
  voltage : List ℝ
  current : List ℝ
  current_density : List ℝ
  power : List ℝ
  efficiency : List ℝ

/-- Voltage sweep, mirroring MembranelessElectrolyzer.simulate_iv_curve: for
each sampled voltage, a fixed hydrogen ion concentration of 1e-7 mol/L
converted to mol/m3, both overpotentials, Butler-Volmer with 4 electrons at
the anode and 2 at the cathode, the minimum of the absolute current
densities, and multiplication by the electrode area. -/
def simulate_iv_curve (m : Params) (voltage_range : ℝ × ℝ) (num_points : ℕ) : IVResult :=
  let voltages := linspace voltage_range.1 voltage_range.2 num_points
  let currents := voltages.map (fun voltage =>
    let concentrations : Option ℝ := some (1e-7 * 1000)
    let eta := calculate_overpotentials m voltage concentrations
    let i_a := butler_volmer m eta.1 m.anode_i0 m.alpha_a 4
    let i_c := butler_volmer m eta.2 m.cathode_i0 m.alpha_c 2
    let current_density := min |i_a| |i_c|
    let area := m.length * m.width
    current_density * area)
  { voltage := voltages
    current := currents
    current_density := currents.map (fun c => c / (m.length * m.width))
    power := List.zipWith (fun v c => v * c) voltages currents
    efficiency := voltages.map (fun v => THEORETICAL_CELL_VOLTAGE / v) }

/-- The default arguments of simulate_iv_curve: voltage_range (1.0, 2.5) and
num_points 50. -/
def simulate_iv_curve_default (m : Params) : IVResult :=
  simulate_iv_curve m (1.0, 2.5) 50

/-- Hydrogen production rate, mirroring
MembranelessElectrolyzer.calculate_hydrogen_production. -/
def calculate_hydrogen_production (current : ℝ) : ℝ :=
  current / (2 * FARADAY_CONSTANT)

/-- Energy efficiency, mirroring
MembranelessElectrolyzer.calculate_energy_efficiency: the ratio of
theoretical power to actual power (the hydrogen rate is computed by the code
but unused). -/
def calculate_energy_efficiency (voltage current : ℝ) : ℝ :=
  let theoretical_power := THEORETICAL_CELL_VOLTAGE * current
  let actual_power := voltage * current
  theoretical_power / actual_power

/-- Error conditions surfaced by the model instance. -/
inductive ModelError where
  | no_results : ModelError
deriving DecidableEq

/-- A model instance: its immutable parameter set and the mutable results
attribute, which MembranelessElectrolyzer.__init__ sets to None. -/
structure Model where
  params : Params
  results : Option IVResult

/-- Construction, mirroring MembranelessElectrolyzer.__init__ with an
explicit parameter set. -/
def init (p : Params) : Model :=
  { params := p, results := none }

/-- Running the sweep on an instance stores the produced result in the
results attribute and also returns it. -/
def simulate (mo : Model) (voltage_range : ℝ × ℝ) (num_points : ℕ) :
    Model × IVResult :=
  let r := simulate_iv_curve mo.params voltage_range num_points
  ({ mo with results := some r }, r)

/-- The guard of MembranelessElectrolyzer.plot_results: it raises ValueError
when the results attribute is still None, otherwise it proceeds to render
(rendering itself is an external matplotlib collaborator and is not
modelled). -/
def plot_results (mo : Model) : Except ModelError Unit :=
  match mo.results with
  | none => Except.error ModelError.no_results
  | some _ => Except.ok ()

/-- C2: butler_volmer returns exactly
i0 * roughness * (exp(alpha*n*F*eta/(R*T)) - exp(-(1-alpha)*n*F*eta/(R*T)))
with F and R the Faraday and gas constants and T the configured temperature;
in this embedding it is a pure function of its arguments and the parameter
set, with no state effect. -/
theorem butler_volmer_formula (m : Params) (eta i0 alpha : ℝ) (n : ℕ) :
    butler_volmer m eta i0 alpha n =
      i0 * m.roughness *
        (Real.exp (alpha * n * FARADAY_CONSTANT * eta / (GAS_CONSTANT * m.temperature)) -
          Real.exp (-((1 - alpha) * n * FARADAY_CONSTANT * eta /
            (GAS_CONSTANT * m.temperature)))) := by
  simp only [butler_volmer]
  have h1 : alpha * n * (FARADAY_CONSTANT / (GAS_CONSTANT * m.temperature)) * eta =
      alpha * n * FARADAY_CONSTANT * eta / (GAS_CONSTANT * m.temperature) := by
    ring
  have h2 : -(1 - alpha) * n * (FARADAY_CONSTANT / (GAS_CONSTANT * m.temperature)) * eta =
      -((1 - alpha) * n * FARADAY_CONSTANT * eta / (GAS_CONSTANT * m.temperature)) := by
    ring
  rw [h1, h2]

/-- C9: Butler-Volmer evaluated at overpotential zero returns exactly zero
current density for every exchange current density, charge transfer
coefficient and electron count, because the two exponential terms cancel. -/
theorem butler_volmer_at_zero (m : Params) (i0 alpha : ℝ) (n : ℕ) :
    butler_volmer m 0 i0 alpha n = 0 := by
  simp [butler_volmer]

/-- C10: the cathode overpotential returned by calculate_overpotentials does
not depend on the applied voltage: calls with different voltages but the same
concentration state agree on the cathode component, hence the cathode-side
Butler-Volmer current density is the same at every sampled voltage of a
sweep. -/
theorem cathode_overpotential_voltage_independent (m : Params) (v1 v2 : ℝ)
    (cH : Option ℝ) :
    (calculate_overpotentials m v1 cH).2 = (calculate_overpotentials m v2 cH).2 ∧
    ∀ (i0 alpha : ℝ) (n : ℕ),
      butler_volmer m (calculate_overpotentials m v1 cH).2 i0 alpha n =
        butler_volmer m (calculate_overpotentials m v2 cH).2 i0 alpha n := by
  have h : (calculate_overpotentials m v1 cH).2 = (calculate_overpotentials m v2 cH).2 := by
    cases cH <;> rfl
  exact ⟨h, fun i0 alpha n => by rw [h]⟩

/-- C7: on a freshly constructed model instance, on which simulate_iv_curve
has never been invoked, the downstream query on results fails with the
unavailable-result error and does not return a default value. -/
theorem plot_results_before_simulate (p : Params) :
    plot_results (init p) = Except.error ModelError.no_results := rfl

/-- C3 counterexample: calculate_energy_efficiency is not independent of the
current value: at applied voltage 2 it returns different values for currents
0 and 1, because at current 0 the ratio degenerates instead of reducing to
the theoretical-over-applied voltage ratio. -/
theorem energy_efficiency_not_current_independent :
    calculate_energy_efficiency 2 0 ≠ calculate_energy_efficiency 2 1 := by
  simp only [calculate_energy_efficiency, THEORETICAL_CELL_VOLTAGE]
  norm_num

/-- C3 amended: for every nonzero current, calculate_energy_efficiency
returns theoretical cell voltage divided by applied voltage, independent of
the current value, and this equals the voltage-efficiency field of any
simulated IV result at the same applied voltage. -/
theorem energy_efficiency_ratio (v i : ℝ) (hi : i ≠ 0) :
    calculate_energy_efficiency v i = THEORETICAL_CELL_VOLTAGE / v ∧
    ∀ (m : Params) (vr : ℝ × ℝ) (N : ℕ),
      (simulate_iv_curve m vr N).efficiency =
        (simulate_iv_curve m vr N).voltage.map
          (fun w => THEORETICAL_CELL_VOLTAGE / w) := by
  constructor
  · simp only [calculate_energy_efficiency]
    rw [mul_comm THEORETICAL_CELL_VOLTAGE i, mul_comm v i, mul_div_mul_left _ _ hi]
  · intro m vr N
    rfl

/-- Witness for the amended C3 theorem at voltage 2 and current 1. -/
theorem energy_efficiency_ratio_witness :
    calculate_energy_efficiency 2 1 = THEORETICAL_CELL_VOLTAGE / 2 :=
  (energy_efficiency_ratio 2 1 one_ne_zero).1

/-- C1: the sweep defaults to 50 points over the range from 1.0 to 2.5 V;
with range endpoints vmin, vmax and point count N it samples N equally
spaced voltages, and at each sampled voltage computes the overpotentials at
the fixed hydrogen ion concentration of 1e-7 mol/L converted to mol/m3,
evaluates Butler-Volmer with electron count 4 at the anode and 2 at the
cathode, takes the minimum of the absolute electrode current densities as
the cell current density, and multiplies by electrode area, length times
width, to obtain the stored total current. -/
theorem simulate_iv_curve_spec (m : Params) (vmin vmax : ℝ) (N : ℕ) (hN : 2 ≤ N)
    (i : ℕ) (hi : i < N) :
    simulate_iv_curve_default m = simulate_iv_curve m (1.0, 2.5) 50 ∧
    (simulate_iv_curve m (vmin, vmax) N).voltage.length = N ∧
    (simulate_iv_curve m (vmin, vmax) N).voltage[i]? =
      some (vmin + (vmax - vmin) * i / ((N : ℝ) - 1)) ∧
    (simulate_iv_curve m (vmin, vmax) N).current[i]? =
      some (min
          |butler_volmer m
              (calculate_overpotentials m (vmin + (vmax - vmin) * i / ((N : ℝ) - 1))
                (some (1e-7 * 1000))).1 m.anode_i0 m.alpha_a 4|
          |butler_volmer m
              (calculate_overpotentials m (vmin + (vmax - vmin) * i / ((N : ℝ) - 1))
                (some (1e-7 * 1000))).2 m.cathode_i0 m.alpha_c 2| *
        (m.length * m.width)) := by
  have hN0 : N ≠ 0 := by omega
  have hN1 : N ≠ 1 := by omega
  have hlin : linspace vmin vmax N =
      (List.range N).map (fun (j : ℕ) => vmin + (vmax - vmin) * (j : ℝ) / ((N : ℝ) - 1)) := by
    unfold linspace
    rw [if_neg hN0, if_neg hN1]
  have hidx : (List.range N)[i]? = some i := by
    simp [List.getElem?_range, hi]
  refine ⟨rfl, ?_, ?_, ?_⟩
  · show (linspace vmin vmax N).length = N
    rw [hlin]
    simp
  · show (linspace vmin vmax N)[i]? = _
    rw [hlin, List.getElem?_map, hidx]
    rfl
  · show ((linspace vmin vmax N).map _)[i]? = _
    rw [hlin, List.getElem?_map, List.getElem?_map, hidx]
    rfl

/-- Witness instantiating the C1 sweep theorem at the default parameter set,
the default range, 50 points and sample index 0. -/
theorem simulate_iv_curve_spec_witness :
    (simulate_iv_curve default_parameters (1.0, 2.5) 50).voltage[0]? =
      some (1.0 + (2.5 - 1.0) * (0 : ℕ) / ((50 : ℝ) - 1)) :=
  (simulate_iv_curve_spec default_parameters 1.0 2.5 50 (by norm_num) 0
    (by norm_num)).2.2.1

/-- Physically valid parameter set, the hypothesis under which the spec
states its sweep invariants: positive geometry and temperature, non-negative
exchange current densities and roughness, charge transfer coefficients
between 0 and 1. -/
def PhysicallyValid (m : Params) : Prop :=
  0 < m.length ∧ 0 < m.width ∧ 0 < m.temperature ∧
    0 ≤ m.anode_i0 ∧ 0 ≤ m.cathode_i0 ∧
    0 ≤ m.alpha_a ∧ m.alpha_a ≤ 1 ∧ 0 ≤ m.alpha_c ∧ m.alpha_c ≤ 1 ∧
    0 ≤ m.roughness

/-- Helper bound: the magnitude of the Butler-Volmer current density is at
most the sum of the two exponential envelopes evaluated at overpotential one
half, whenever the overpotential magnitude is at most one half. -/
theorem butler_volmer_abs_le (m : Params) (eta i0 alpha : ℝ) (n : ℕ)
    (hi0 : 0 ≤ i0) (hr : 0 ≤ m.roughness) (ha0 : 0 ≤ alpha) (ha1 : alpha ≤ 1)
    (hT : 0 < m.temperature) (heta : |eta| ≤ 1 / 2) :
    |butler_volmer m eta i0 alpha n| ≤
      i0 * m.roughness *
        (Real.exp (alpha * n * (FARADAY_CONSTANT / (GAS_CONSTANT * m.temperature)) * (1 / 2)) +
          Real.exp ((1 - alpha) * n *
            (FARADAY_CONSTANT / (GAS_CONSTANT * m.temperature)) * (1 / 2))) := by
  have hFRT : 0 ≤ FARADAY_CONSTANT / (GAS_CONSTANT * m.temperature) := by
    apply div_nonneg
    · norm_num [FARADAY_CONSTANT]
    · have : (0 : ℝ) < GAS_CONSTANT := by norm_num [GAS_CONSTANT]
      nlinarith
  set k := FARADAY_CONSTANT / (GAS_CONSTANT * m.temperature) with hk
  have hca : 0 ≤ alpha * n * k :=
    mul_nonneg (mul_nonneg ha0 (Nat.cast_nonneg n)) hFRT
  have hcc : 0 ≤ (1 - alpha) * n * k :=
    mul_nonneg (mul_nonneg (by linarith) (Nat.cast_nonneg n)) hFRT
  have hA : Real.exp (alpha * n * k * eta) ≤ Real.exp (alpha * n * k * (1 / 2)) := by
    apply Real.exp_le_exp.mpr
    calc alpha * n * k * eta ≤ |alpha * n * k * eta| := le_abs_self _
      _ = alpha * n * k * |eta| := by rw [abs_mul, abs_of_nonneg hca]
      _ ≤ alpha * n * k * (1 / 2) := mul_le_mul_of_nonneg_left heta hca
  have hC : Real.exp (-(1 - alpha) * n * k * eta) ≤
      Real.exp ((1 - alpha) * n * k * (1 / 2)) := by
    apply Real.exp_le_exp.mpr
    have hrw : -(1 - alpha) * n * k * eta = -((1 - alpha) * n * k * eta) := by ring
    calc -(1 - alpha) * n * k * eta = -((1 - alpha) * n * k * eta) := hrw
      _ ≤ |(1 - alpha) * n * k * eta| := neg_le_abs _
      _ = (1 - alpha) * n * k * |eta| := by rw [abs_mul, abs_of_nonneg hcc]
      _ ≤ (1 - alpha) * n * k * (1 / 2) := mul_le_mul_of_nonneg_left heta hcc
  simp only [butler_volmer, ← hk]
  rw [abs_mul, abs_of_nonneg (mul_nonneg hi0 hr)]
  apply mul_le_mul_of_nonneg_left _ (mul_nonneg hi0 hr)
  calc |Real.exp (alpha * n * k * eta) - Real.exp (-(1 - alpha) * n * k * eta)| ≤
      |Real.exp (alpha * n * k * eta)| + |Real.exp (-(1 - alpha) * n * k * eta)| :=
        abs_sub _ _
    _ = Real.exp (alpha * n * k * eta) + Real.exp (-(1 - alpha) * n * k * eta) := by
        rw [abs_of_pos (Real.exp_pos _), abs_of_pos (Real.exp_pos _)]
    _ ≤ _ := add_le_add hA hC

/-- C8: over a physically valid parameter set and a monotonically increasing
voltage sweep, every entry of the produced current-density sequence is
non-negative; and every entry sampled at a voltage whose anode overpotential
is within 0.5 V of the standard oxygen electrode potential is bounded by an
explicit finite value. -/
theorem current_density_nonneg_and_bounded (m : Params) (vmin vmax : ℝ) (N : ℕ)
    (hvalid : PhysicallyValid m) (_hmono : vmin ≤ vmax) :
    (∀ x ∈ (simulate_iv_curve m (vmin, vmax) N).current_density, 0 ≤ x) ∧
    ∀ (j : ℕ) (v x : ℝ),
      (simulate_iv_curve m (vmin, vmax) N).voltage[j]? = some v →
      |v - STANDARD_OXYGEN_POTENTIAL| ≤ 1 / 2 →
      (simulate_iv_curve m (vmin, vmax) N).current_density[j]? = some x →
      x ≤ m.anode_i0 * m.roughness *
        (Real.exp (m.alpha_a * 4 *
            (FARADAY_CONSTANT / (GAS_CONSTANT * m.temperature)) * (1 / 2)) +
          Real.exp ((1 - m.alpha_a) * 4 *
            (FARADAY_CONSTANT / (GAS_CONSTANT * m.temperature)) * (1 / 2))) := by
  obtain ⟨hL, hW, hT, hia, hic, ha0, ha1, hc0, hc1, hrg⟩ := hvalid
  have harea : m.length * m.width ≠ 0 := by positivity
  constructor
  · intro x hx
    simp only [simulate_iv_curve, List.mem_map] at hx
    obtain ⟨c, ⟨v, hv, hc⟩, hxc⟩ := hx
    subst hxc
    subst hc
    apply div_nonneg _ (by positivity)
    exact mul_nonneg (le_min (abs_nonneg _) (abs_nonneg _)) (by positivity)
  · intro j v x hvj hclose hxj
    have heta : (calculate_overpotentials m v (some (1e-7 * 1000))).1 =
        v - STANDARD_OXYGEN_POTENTIAL := rfl
    have hx : x = min
        |butler_volmer m (calculate_overpotentials m v (some (1e-7 * 1000))).1
          m.anode_i0 m.alpha_a 4|
        |butler_volmer m (calculate_overpotentials m v (some (1e-7 * 1000))).2
          m.cathode_i0 m.alpha_c 2| * (m.length * m.width) / (m.length * m.width) := by
      have hmap : (simulate_iv_curve m (vmin, vmax) N).current_density[j]? =
          ((simulate_iv_curve m (vmin, vmax) N).voltage[j]?).map
            (fun w => min
              |butler_volmer m (calculate_overpotentials m w (some (1e-7 * 1000))).1
                m.anode_i0 m.alpha_a 4|
              |butler_volmer m (calculate_overpotentials m w (some (1e-7 * 1000))).2
                m.cathode_i0 m.alpha_c 2| * (m.length * m.width) /
              (m.length * m.width)) := by
        show (((linspace vmin vmax N).map _).map _)[j]? = _
        rw [List.getElem?_map, List.getElem?_map, Option.map_map]
        rfl
      rw [hmap, hvj] at hxj
      exact (Option.some.inj hxj).symm
    rw [hx, mul_div_cancel_right₀ _ harea]
    refine le_trans (min_le_left _ _) ?_
    rw [heta]
    have hb := butler_volmer_abs_le m (v - STANDARD_OXYGEN_POTENTIAL)
      m.anode_i0 m.alpha_a 4 hia hrg ha0 ha1 hT hclose
    simpa using hb

/-- Witness instantiating the C8 invariant theorem at the default parameter
set over the default sweep range. -/
theorem current_density_nonneg_and_bounded_witness :
    PhysicallyValid default_parameters ∧
      ∀ x ∈ (simulate_iv_curve default_parameters (1.0, 2.5) 50).current_density,
        0 ≤ x := by
  have hvalid : PhysicallyValid default_parameters := by
    norm_num [PhysicallyValid, default_parameters]
  exact ⟨hvalid,
    (current_density_nonneg_and_bounded default_parameters 1.0 2.5 50 hvalid
      (by norm_num)).1⟩

/-- A row of the current-voltage measurement table, with the columns the
analysis code reads. -/
structure IVRow where
  voltage_V : ℝ
  current_density_A_m2 : ℝ
  current_A : ℝ
  uncertainty_A : ℝ

/-- A row of the hydrogen production table, with the columns the analysis
code reads. -/
structure H2Row where
  current_density_A_m2 : ℝ
  h2_production_mmol_s : ℝ
  faradaic_efficiency : ℝ
  uncertainty_efficiency : ℝ

/-- The mutable attributes of an ExperimentalAnalysis instance: the two
optional cached tables, set to None by the constructor.  The read counters
stand for the file-reading collaborator of the spec, counting how many times
each file has been read. -/
structure AnalysisState where
  iv_data : Option (List IVRow)
  h2_data : Option (List H2Row)
  iv_reads : ℕ
  h2_reads : ℕ

/-- Construction, mirroring ExperimentalAnalysis.__init__. -/
def initAnalysis : AnalysisState :=
  { iv_data := none, h2_data := none, iv_reads := 0, h2_reads := 0 }

/-- ExperimentalAnalysis.load_iv_data: unconditionally reads the file
(represented by its contents ivFile), stores the table in the cache and
returns it. -/
def load_iv_data (ivFile : List IVRow) (s : AnalysisState) :
    AnalysisState × List IVRow :=
  ({ s with iv_data := some ivFile, iv_reads := s.iv_reads + 1 }, ivFile)

/-- ExperimentalAnalysis.load_h2_data: unconditionally reads the file,
stores the table in the cache and returns it. -/
def load_h2_data (h2File : List H2Row) (s : AnalysisState) :
    AnalysisState × List H2Row :=
  ({ s with h2_data := some h2File, h2_reads := s.h2_reads + 1 }, h2File)

/-- The lazy-load guard of the query methods: if self.iv_data is None then
self.load_iv_data(). -/
def ensure_iv (ivFile : List IVRow) (s : AnalysisState) : AnalysisState :=
  if s.iv_data.isNone then (load_iv_data ivFile s).1 else s

/-- The lazy-load guard for the hydrogen table. -/
def ensure_h2 (h2File : List H2Row) (s : AnalysisState) : AnalysisState :=
  if s.h2_data.isNone then (load_h2_data h2File s).1 else s

/-- One-dimensional linear interpolation with clamping, as numpy.interp
computes it over a table of sample pairs whose first components increase:
below the first sample the first value, above the last sample the last
value, linear blending between bracketing samples. -/
def interp (x : ℝ) : List (ℝ × ℝ) → ℝ
  | [] => 0
  | [(_, y0)] => y0
  | (x0, y0) :: (x1, y1) :: rest =>
    if x ≤ x0 then y0
    else if x ≤ x1 then y0 + (y1 - y0) * (x - x0) / (x1 - x0)
    else interp x ((x1, y1) :: rest)

/-- ExperimentalAnalysis.interpolate_current: lazily load the IV table, then
numpy.interp of the query voltage against the voltage and current-density
columns. -/
def interpolate_current (ivFile : List IVRow) (s : AnalysisState) (voltage : ℝ) :
    AnalysisState × ℝ :=
  let s1 := ensure_iv ivFile s
  (s1, interp voltage
    ((s1.iv_data.getD []).map (fun r => (r.voltage_V, r.current_density_A_m2))))

/-- ExperimentalAnalysis.interpolate_voltage: lazily load the IV table, then
numpy.interp of the query current density against the current-density and
voltage columns. -/
def interpolate_voltage (ivFile : List IVRow) (s : AnalysisState)
    (current_density : ℝ) : AnalysisState × ℝ :=
  let s1 := ensure_iv ivFile s
  (s1, interp current_density
    ((s1.iv_data.getD []).map (fun r => (r.current_density_A_m2, r.voltage_V))))

/-- Maximum of a pandas series, for the nonempty tables the code works on. -/
def seriesMax : List ℝ → ℝ
  | [] => 0
  | x :: xs => xs.foldl max x

/-- Minimum of a pandas series, for the nonempty tables the code works on. -/
def seriesMin : List ℝ → ℝ
  | [] => 0
  | x :: xs => xs.foldl min x

/-- Mean of a pandas series. -/
def seriesMean (l : List ℝ) : ℝ :=
  l.sum / l.length

/-- The metrics dictionary assembled by calculate_performance_metrics. -/
structure Metrics where
  current_at_1_5V : ℝ
  current_at_2_0V : ℝ
  max_current_density : ℝ
  voltage_at_100_A_m2 : ℝ
  voltage_at_200_A_m2 : ℝ
  avg_faradaic_efficiency : ℝ
  min_faradaic_efficiency : ℝ
  max_h2_rate_mmol_s : ℝ

/-- ExperimentalAnalysis.calculate_performance_metrics: lazily load both
tables if absent, then assemble the fixed set of derived scalars. -/
def calculate_performance_metrics (ivFile : List IVRow) (h2File : List H2Row)
    (s : AnalysisState) : AnalysisState × Metrics :=
  let s1 := ensure_iv ivFile s
  let s2 := ensure_h2 h2File s1
  let iv := s2.iv_data.getD []
  let h2 := s2.h2_data.getD []
  (s2,
    { current_at_1_5V := (interpolate_current ivFile s2 1.5).2
      current_at_2_0V := (interpolate_current ivFile s2 2.0).2
      max_current_density := seriesMax (iv.map IVRow.current_density_A_m2)
      voltage_at_100_A_m2 := (interpolate_voltage ivFile s2 100).2
      voltage_at_200_A_m2 := (interpolate_voltage ivFile s2 200).2
      avg_faradaic_efficiency := seriesMean (h2.map H2Row.faradaic_efficiency)
      min_faradaic_efficiency := seriesMin (h2.map H2Row.faradaic_efficiency)
      max_h2_rate_mmol_s := seriesMax (h2.map H2Row.h2_production_mmol_s) })

/-- Errors surfaced by the Tafel regression. -/
inductive FitError where
  | insufficient_data : FitError
  | no_convergence : FitError
deriving DecidableEq

/-- The Tafel fit result dictionary. -/
structure TafelFit where
  a : ℝ
  b : ℝ
  r_squared : ℝ
  covariance : (ℝ × ℝ) × (ℝ × ℝ)
  voltage_range : ℝ × ℝ

/-- Modelled from the spec: scipy.optimize.curve_fit is an external library
collaborator, abstracted as any function from data points, an initial
parameter guess and an iteration budget to either optimal parameters with
their covariance matrix or a propagated error.  The spec states it fails
when fewer points than parameters are supplied or when it does not converge
within its budget; theorems take that failure behaviour as a hypothesis on
the abstract routine. -/
def CurveFit : Type :=
  List (ℝ × ℝ) → ℝ × ℝ → ℕ → Except FitError ((ℝ × ℝ) × ((ℝ × ℝ) × (ℝ × ℝ)))

/-- ExperimentalAnalysis.fit_tafel_equation: lazily load the IV table,
restrict it to rows whose voltage lies within the inclusive range, fit the
model i = exp((eta - a) / b) through the abstract optimizer with initial
guess (1.0, 0.1) and iteration cap 5000, propagate its error if it fails,
and otherwise compute the coefficient of determination from the residual and
total sums of squares. -/
def fit_tafel_equation (cf : CurveFit) (ivFile : List IVRow) (s : AnalysisState)
    (voltage_range : ℝ × ℝ) : AnalysisState × Except FitError TafelFit :=
  let s1 := ensure_iv ivFile s
  let rows := (s1.iv_data.getD []).filter
    (fun r => decide (voltage_range.1 ≤ r.voltage_V ∧ r.voltage_V ≤ voltage_range.2))
  let pts := rows.map (fun r => (r.voltage_V, r.current_density_A_m2))
  match cf pts (1.0, 0.1) 5000 with
  | Except.error e => (s1, Except.error e)
  | Except.ok (popt, pcov) =>
    let y_pred := pts.map (fun p => Real.exp ((p.1 - popt.1) / popt.2))
    let ss_res := (List.zipWith (fun y yp => (y - yp) ^ 2) (pts.map Prod.snd) y_pred).sum
    let current := pts.map Prod.snd
    let ss_tot := (current.map (fun y => (y - seriesMean current) ^ 2)).sum
    (s1, Except.ok
      { a := popt.1
        b := popt.2
        r_squared := 1 - ss_res / ss_tot
        covariance := pcov
        voltage_range := voltage_range })

/-- The default voltage range of fit_tafel_equation: 1.2 to 1.8 V. -/
def fit_tafel_equation_default (cf : CurveFit) (ivFile : List IVRow)
    (s : AnalysisState) : AnalysisState × Except FitError TafelFit :=
  fit_tafel_equation cf ivFile s (1.2, 1.8)

/-- Helper: interpolation at a sample abscissa of a strictly increasing
table returns the sample ordinate. -/
theorem interp_at_sample : ∀ (tbl : List (ℝ × ℝ)),
    (tbl.map Prod.fst).Pairwise (· < ·) →
    ∀ xi yi : ℝ, (xi, yi) ∈ tbl → interp xi tbl = yi := by
  intro tbl
  induction tbl with
  | nil =>
    intro _ xi yi hmem
    simp at hmem
  | cons hd tl ih =>
    intro hsorted xi yi hmem
    obtain ⟨x0, y0⟩ := hd
    cases tl with
    | nil =>
      simp at hmem
      obtain ⟨hx, hy⟩ := hmem
      subst hx
      subst hy
      rfl
    | cons hd1 tl1 =>
      obtain ⟨x1, y1⟩ := hd1
      simp only [List.map_cons, List.pairwise_cons] at hsorted
      obtain ⟨h01, h1r, hrr⟩ := hsorted
      rcases List.mem_cons.mp hmem with heq | hmem1
      · rw [Prod.mk.injEq] at heq
        obtain ⟨hx, hy⟩ := heq
        subst hx
        subst hy
        simp only [interp]
        rw [if_pos le_rfl]
      · have hx0xi : x0 < xi := by
          apply h01
          exact List.mem_map_of_mem Prod.fst hmem1
        simp only [interp]
        rw [if_neg (not_le.mpr hx0xi)]
        rcases List.mem_cons.mp hmem1 with heq1 | hmem2
        · rw [Prod.mk.injEq] at heq1
          obtain ⟨hx, hy⟩ := heq1
          subst hx
          subst hy
          rw [if_pos le_rfl]
          have hne : xi - x0 ≠ 0 := sub_ne_zero_of_ne (ne_of_gt hx0xi)
          field_simp
        · have hx1xi : x1 < xi := by
            apply h1r
            exact List.mem_map_of_mem Prod.fst hmem2
          rw [if_neg (not_le.mpr hx1xi)]
          apply ih
          · simp only [List.map_cons, List.pairwise_cons]
            exact ⟨h1r, hrr⟩
          · exact hmem1

/-- Helper: interpolation below the first sample clamps to the first
ordinate. -/
theorem interp_clamp_low (x x0 y0 : ℝ) (tl : List (ℝ × ℝ)) (hx : x ≤ x0) :
    interp x ((x0, y0) :: tl) = y0 := by
  cases tl with
  | nil => rfl
  | cons hd1 tl1 =>
    obtain ⟨x1, y1⟩ := hd1
    simp only [interp]
    rw [if_pos hx]

/-- Helper: interpolation above every sample clamps to the last ordinate. -/
theorem interp_clamp_high : ∀ (tbl : List (ℝ × ℝ)) (x : ℝ) (l : ℝ × ℝ),
    (∀ p ∈ tbl, p.1 < x) → tbl.getLast? = some l → interp x tbl = l.2 := by
  intro tbl
  induction tbl with
  | nil =>
    intro x l _ hl
    simp at hl
  | cons hd tl ih =>
    intro x l hgt hl
    obtain ⟨x0, y0⟩ := hd
    cases tl with
    | nil =>
      simp at hl
      subst hl
      rfl
    | cons hd1 tl1 =>
      obtain ⟨x1, y1⟩ := hd1
      have hx0 : x0 < x := hgt (x0, y0) (by simp)
      have hx1 : x1 < x := hgt (x1, y1) (by simp)
      simp only [interp]
      rw [if_neg (not_le.mpr hx0), if_neg (not_le.mpr hx1)]
      apply ih
      · intro p hp
        exact hgt p (List.mem_cons_of_mem _ hp)
      · rw [← hl, List.getLast?_cons_cons]

/-- Helper: the lazy-load guard leaves a state whose IV table is already
loaded unchanged. -/
theorem ensure_iv_of_some (ivFile tbl : List IVRow) (s : AnalysisState)
    (hld : s.iv_data = some tbl) : ensure_iv ivFile s = s := by
  simp [ensure_iv, hld]

/-- The 3-row synthetic IV table of the spec, with voltages 1.0, 1.5, 2.0
and current densities 0, 50, 100. -/
def tbl3ex : List IVRow :=
  [{ voltage_V := 1.0, current_density_A_m2 := 0, current_A := 0, uncertainty_A := 0 },
   { voltage_V := 1.5, current_density_A_m2 := 50, current_A := 0, uncertainty_A := 0 },
   { voltage_V := 2.0, current_density_A_m2 := 100, current_A := 0, uncertainty_A := 0 }]

/-- C5: over a loaded IV table with strictly increasing voltages,
interpolation at a sample voltage returns that sample's current density,
interpolation below the first or above the last sample clamps to the
boundary value, and on the 3-row synthetic table interpolating at 1.25
yields 25 while interpolating at 3.0 yields 100. -/
theorem interpolate_current_spec (ivFile tbl : List IVRow) (s : AnalysisState)
    (hld : s.iv_data = some tbl)
    (hsorted : (tbl.map IVRow.voltage_V).Pairwise (· < ·)) :
    (∀ r ∈ tbl, (interpolate_current ivFile s r.voltage_V).2 = r.current_density_A_m2) ∧
    (∀ (x : ℝ) (r0 : IVRow) (tl : List IVRow), tbl = r0 :: tl → x ≤ r0.voltage_V →
      (interpolate_current ivFile s x).2 = r0.current_density_A_m2) ∧
    (∀ (x : ℝ) (rl : IVRow), (∀ r ∈ tbl, r.voltage_V < x) → tbl.getLast? = some rl →
      (interpolate_current ivFile s x).2 = rl.current_density_A_m2) ∧
    (interpolate_current tbl3ex initAnalysis 1.25).2 = 25 ∧
    (interpolate_current tbl3ex initAnalysis 3).2 = 100 := by
  have hs : ensure_iv ivFile s = s := ensure_iv_of_some ivFile tbl s hld
  have hpairs : ((tbl.map (fun r => (r.voltage_V, r.current_density_A_m2))).map
      Prod.fst).Pairwise (· < ·) := by
    rw [List.map_map]
    exact hsorted
  refine ⟨?_, ?_, ?_, ?_, ?_⟩
  · intro r hr
    simp only [interpolate_current, hs, hld, Option.getD_some]
    exact interp_at_sample _ hpairs r.voltage_V r.current_density_A_m2
      (List.mem_map_of_mem _ hr)
  · intro x r0 tl htbl hx
    subst htbl
    simp only [interpolate_current, hs, hld, Option.getD_some, List.map_cons]
    exact interp_clamp_low x r0.voltage_V r0.current_density_A_m2 _ hx
  · intro x rl hgt hlast
    simp only [interpolate_current, hs, hld, Option.getD_some]
    have hl : (tbl.map (fun r => (r.voltage_V, r.current_density_A_m2))).getLast? =
        some (rl.voltage_V, rl.current_density_A_m2) := by
      rw [List.getLast?_map, hlast]
      rfl
    have hgt2 : ∀ p ∈ tbl.map (fun r => (r.voltage_V, r.current_density_A_m2)),
        p.1 < x := by
      intro p hp
      obtain ⟨r, hr, hrp⟩ := List.mem_map.mp hp
      subst hrp
      exact hgt r hr
    exact interp_clamp_high _ x _ hgt2 hl
  · norm_num [interpolate_current, ensure_iv, initAnalysis, load_iv_data, tbl3ex, interp]
  · norm_num [interpolate_current, ensure_iv, initAnalysis, load_iv_data, tbl3ex, interp]

/-- Witness instantiating the C5 interpolation theorem on the 3-row
synthetic table, extracting the two concrete evaluations. -/
theorem interpolate_current_spec_witness :
    (interpolate_current tbl3ex initAnalysis 1.25).2 = 25 ∧
    (interpolate_current tbl3ex initAnalysis 3).2 = 100 := by
  have h := interpolate_current_spec tbl3ex tbl3ex
    (load_iv_data tbl3ex initAnalysis).1 rfl
    (by norm_num [tbl3ex, List.pairwise_cons])
  exact ⟨h.2.2.2.1, h.2.2.2.2⟩

/-- C4: the analysis tables form an internal cache populated at most once
unless explicitly reloaded: a metrics query loads a table only when it is
absent, and a second query without an explicit reload call performs no
further file read, keeps the cached tables identical and returns the same
metrics. -/
theorem performance_metrics_load_once (ivFile : List IVRow) (h2File : List H2Row)
    (s : AnalysisState) :
    (s.iv_data.isSome = true →
      (calculate_performance_metrics ivFile h2File s).1.iv_reads = s.iv_reads ∧
      (calculate_performance_metrics ivFile h2File s).1.iv_data = s.iv_data) ∧
    (s.iv_data = none →
      (calculate_performance_metrics ivFile h2File s).1.iv_reads = s.iv_reads + 1 ∧
      (calculate_performance_metrics ivFile h2File s).1.iv_data = some ivFile) ∧
    (calculate_performance_metrics ivFile h2File
        (calculate_performance_metrics ivFile h2File s).1).1 =
      (calculate_performance_metrics ivFile h2File s).1 ∧
    (calculate_performance_metrics ivFile h2File
        (calculate_performance_metrics ivFile h2File s).1).2 =
      (calculate_performance_metrics ivFile h2File s).2 := by
  obtain ⟨iv, h2, ri, rh⟩ := s
  cases iv <;> cases h2 <;>
    simp [calculate_performance_metrics, ensure_iv, ensure_h2,
      load_iv_data, load_h2_data]

/-- Witness instantiating the C4 load-once theorem on the 3-row synthetic
table starting from a fresh instance: the first query performs exactly one
read of the IV file and the second query changes nothing. -/
theorem performance_metrics_load_once_witness :
    ((calculate_performance_metrics tbl3ex [] initAnalysis).1.iv_reads =
      initAnalysis.iv_reads + 1 ∧
     (calculate_performance_metrics tbl3ex [] initAnalysis).1.iv_data =
      some tbl3ex) ∧
    (calculate_performance_metrics tbl3ex []
        (calculate_performance_metrics tbl3ex [] initAnalysis).1).1 =
      (calculate_performance_metrics tbl3ex [] initAnalysis).1 :=
  ⟨(performance_metrics_load_once tbl3ex [] initAnalysis).2.1 rfl,
   (performance_metrics_load_once tbl3ex [] initAnalysis).2.2.1⟩

/-- C6: the Tafel regression restricts the loaded IV table to the rows whose
voltage lies within the caller-given inclusive range, defaulting to 1.2 to
1.8 V, hands the restricted points to the optimizer with initial guess
(1.0, 0.1) and iteration cap 5000, and propagates the optimizer's error to
the caller; with the spec-modelled optimizer contract, failure therefore
occurs whenever fewer than 2 points fall in the selected range or the
optimizer does not converge within its budget. -/
theorem fit_tafel_equation_spec (cf : CurveFit) (ivFile tbl : List IVRow)
    (s : AnalysisState) (vr : ℝ × ℝ) (hld : s.iv_data = some tbl)
    (hcf : ∀ pts p0 budget, pts.length < 2 →
      ∃ e, cf pts p0 budget = Except.error e) :
    (∀ r : IVRow,
      r ∈ tbl.filter (fun r => decide (vr.1 ≤ r.voltage_V ∧ r.voltage_V ≤ vr.2)) ↔
        r ∈ tbl ∧ vr.1 ≤ r.voltage_V ∧ r.voltage_V ≤ vr.2) ∧
    ((tbl.filter (fun r =>
        decide (vr.1 ≤ r.voltage_V ∧ r.voltage_V ≤ vr.2))).length < 2 →
      ∃ e, (fit_tafel_equation cf ivFile s vr).2 = Except.error e) ∧
    (∀ e, cf ((tbl.filter (fun r =>
          decide (vr.1 ≤ r.voltage_V ∧ r.voltage_V ≤ vr.2))).map
        (fun r => (r.voltage_V, r.current_density_A_m2))) (1.0, 0.1) 5000 =
        Except.error e →
      (fit_tafel_equation cf ivFile s vr).2 = Except.error e) ∧
    fit_tafel_equation_default cf ivFile s = fit_tafel_equation cf ivFile s (1.2, 1.8) := by
  have hs : ensure_iv ivFile s = s := ensure_iv_of_some ivFile tbl s hld
  have hprop : ∀ e, cf ((tbl.filter (fun r =>
        decide (vr.1 ≤ r.voltage_V ∧ r.voltage_V ≤ vr.2))).map
      (fun r => (r.voltage_V, r.current_density_A_m2))) (1.0, 0.1) 5000 =
      Except.error e →
      (fit_tafel_equation cf ivFile s vr).2 = Except.error e := by
    intro e he
    simp only [fit_tafel_equation, hs, hld, Option.getD_some, he]
  refine ⟨?_, ?_, hprop, rfl⟩
  · intro r
    simp [List.mem_filter]
  · intro hlen
    obtain ⟨e, he⟩ := hcf ((tbl.filter (fun r =>
        decide (vr.1 ≤ r.voltage_V ∧ r.voltage_V ≤ vr.2))).map
      (fun r => (r.voltage_V, r.current_density_A_m2))) (1.0, 0.1) 5000
      (by simpa using hlen)
    exact ⟨e, hprop e he⟩

/-- Witness instantiating the C6 regression theorem on the 3-row synthetic
table with an optimizer that reports non-convergence: the error propagates
to the caller. -/
theorem fit_tafel_equation_spec_witness :
    (fit_tafel_equation (fun _ _ _ => Except.error FitError.no_convergence)
        tbl3ex (load_iv_data tbl3ex initAnalysis).1 (1.2, 1.8)).2 =
      Except.error FitError.no_convergence :=
  (fit_tafel_equation_spec
      (fun _ _ _ => Except.error FitError.no_convergence)
      tbl3ex tbl3ex (load_iv_data tbl3ex initAnalysis).1 (1.2, 1.8) rfl
      (fun _ _ _ _ => ⟨FitError.no_convergence, rfl⟩)).2.2.1
    FitError.no_convergence rfl

end Electrolyzer
